import Mathlib

/- Shallow embedding of the request-resolution pipeline of ws.py: path
decoding and the sandbox check in do_GET, the ordered case chain, static
file serving, directory listing, CGI execution and error reporting.
Strings of the embedded program are lists of characters; the filesystem
and the child-process boundary are explicit oracles passed to the
functions that consult them. -/

namespace WS

/-- Strings of the embedded program, as lists of characters. -/
abbrev Str := List Char

/-- Conversion from Lean string literals. -/
def str (s : String) : Str := s.data

/-- The single-quote character used by the error messages of the source. -/
def sq : Str := [Char.ofNat 39]

/-- Value of a hexadecimal digit, as used by percent decoding. -/
def hexVal (c : Char) : Option Nat :=
  if ('0' ≤ c ∧ c ≤ '9') then some (c.toNat - Char.toNat '0')
  else if ('a' ≤ c ∧ c ≤ 'f') then some (c.toNat - Char.toNat 'a' + 10)
  else if ('A' ≤ c ∧ c ≤ 'F') then some (c.toNat - Char.toNat 'A' + 10)
  else none

/-- Percent decoding of a request path, mirroring urllib unquote at the
byte level: a percent sign followed by two hex digits becomes the character
with that code, anything else is copied unchanged. -/
def unquote : Str → Str
  | '%' :: a :: b :: rest =>
    match hexVal a, hexVal b with
    | some x, some y => Char.ofNat (16 * x + y) :: unquote rest
    | _, _ => '%' :: unquote (a :: b :: rest)
  | c :: rest => c :: unquote rest
  | [] => []

/-- Python str.lstrip with a slash argument: drop every leading slash. -/
def lstripSlash : Str → Str
  | [] => []
  | c :: rest => if c = '/' then lstripSlash rest else c :: rest

/-- Python str.rstrip with a slash argument: drop every trailing slash. -/
def rstripSlash (s : Str) : Str := (lstripSlash s.reverse).reverse

/-- POSIX os.path.join with two components: an absolute second component
replaces the first; otherwise the parts are glued with a single
separator. -/
def osJoin (a b : Str) : Str :=
  if b.head? = some '/' then b
  else if a = [] then b
  else if a.getLast? = some '/' then a ++ b
  else a ++ '/' :: b

/-- Python str.endswith. -/
def endswith (s suffix : Str) : Bool := List.isSuffixOf suffix s

/-- Filesystem oracle: the os.path predicates and the content accesses that
the handler performs. The read and listdir operations return an error
message when the underlying call would raise IOError or OSError. -/
structure FS where
  pathExists : Str → Bool
  isFile : Str → Bool
  isDir : Str → Bool
  read : Str → Except Str Str
  listdir : Str → Except Str (List Str)
  getsize : Str → Except Str Nat

/-- Mutable request fields of the handler consulted by dispatch. -/
structure Ctx where
  path : Str
  full_path : Str
deriving DecidableEq

/-- Response value: status code, content type and fully buffered body. -/
structure Response where
  status : Nat
  contentType : Str
  body : Str
deriving DecidableEq

/-- Content type chosen in send_content from the suffix of the request
path. -/
def contentTypeFor (path : Str) : Str :=
  if endswith path (str ".html") || endswith path (str ".htm") then str "text/html"
  else if endswith path (str ".css") then str "text/css"
  else if endswith path (str ".js") then str "application/javascript"
  else if endswith path (str ".json") then str "application/json"
  else if endswith path (str ".jpg") || endswith path (str ".jpeg") then str "image/jpeg"
  else if endswith path (str ".png") then str "image/png"
  else if endswith path (str ".gif") then str "image/gif"
  else str "text/html"

/-- Construction of the response performed by send_content. -/
def send_content (path content : Str) (status : Nat) : Response :=
  ⟨status, contentTypeFor path, content⟩

/-- Error page template segment before the request path. -/
def errorPageA : Str :=
  str "\n    <html>\n    <head><title>Error</title></head>\n    <body>\n        <h1>Error accessing "

/-- Error page template segment between path and message. -/
def errorPageB : Str := str "</h1>\n        <p>"

/-- Error page template segment after the message. -/
def errorPageC : Str :=
  str "</p>\n        <hr>\n        <p><em>Simple Python Web Server</em></p>\n    </body>\n    </html>\n    "

/-- Error page template instantiated with path and message. -/
def error_page (path msg : Str) : Str :=
  errorPageA ++ path ++ errorPageB ++ msg ++ errorPageC

/-- Error reporter handle_error: a 404 response carrying the error page. -/
def handle_error (path msg : Str) : Response :=
  send_content path (error_page path msg) 404

/-- Rounding of the exact fraction t over p to the nearest integer with
ties broken to even, the rounding the percent .1f formatting of Python
applies to the exact binary value being printed. -/
def roundHalfEven (t p : Nat) : Nat :=
  let q := t / p
  let r := t % p
  if 2 * r < p then q
  else if p < 2 * r then q + 1
  else if q % 2 = 0 then q else q + 1

/-- One decimal digit rendering of the exact value size divided by pow,
rounded to nearest with ties to even, as the percent .1f formatting of
Python renders the exact binary value; for sizes below 2 to the 53 the
intermediate float divisions by 1024 of the source are exact, so this is
the exact output of the source there. -/
def fmt1 (size pow : Nat) : Str :=
  let n := roundHalfEven (10 * size) pow
  str (toString (n / 10)) ++ str "." ++ str (toString (n % 10))

/-- Unit loop of format_size: the running value is represented exactly as
size divided by pow instead of a floating division. -/
def formatSizeAux : List Str → Nat → Nat → Str
  | [], size, pow => fmt1 size pow ++ str " TB"
  | u :: rest, size, pow =>
    if size < 1024 * pow then fmt1 size pow ++ str " " ++ u
    else formatSizeAux rest size (1024 * pow)

/-- Human readable size formatting of the source. -/
def format_size (size : Nat) : Str :=
  formatSizeAux [str "B", str "KB", str "MB", str "GB"] size 1

/-- Lexicographic code point order on strings, the comparison used when
Python sorts a list of names. -/
def strLe : Str → Str → Bool
  | [], _ => true
  | _ :: _, [] => false
  | a :: as, b :: bs =>
    if a.toNat < b.toNat then true
    else if b.toNat < a.toNat then false
    else strLe as bs

/-- Propositional form of strLe for the sorting lemmas. -/
def SLe (a b : Str) : Prop := strLe a b = true

instance : DecidableRel SLe := fun a b => by unfold SLe; infer_instance

/-- Index file location: os.path.join of the directory and index.html. -/
def index_path (ctx : Ctx) : Str := osJoin ctx.full_path (str "index.html")

/-- Everything up to and including the last slash, empty when no slash. -/
def takeToLastSlash (p : Str) : Str :=
  (p.reverse.dropWhile (fun c => c ≠ '/')).reverse

/-- POSIX os.path.dirname. -/
def dirname (p : Str) : Str :=
  let head := takeToLastSlash p
  if head ≠ [] ∧ head.any (fun c => c ≠ '/') then rstripSlash head else head

/-- Parent directory link item emitted when the request path is not the
root. -/
def parent_item (path : Str) : Str :=
  let pp := dirname (rstripSlash path)
  let pp2 := if pp = [] then str "/" else pp
  str "<li><a href=\"" ++ pp2 ++ str "\">../</a></li>"

/-- Listing line for one directory entry: a directory gets a trailing slash
and no size, anything else gets its size through format_size; an OSError
raised by getsize propagates out of the loop to the enclosing handler. -/
def entry_item (fs : FS) (path full_path e : Str) : Except Str Str :=
  let entry_path := osJoin full_path e
  let url_path := rstripSlash path ++ str "/" ++ e
  if fs.isDir entry_path then
    Except.ok (str "<li><a href=\"" ++ url_path ++ str "/\">" ++ e ++ str "/</a></li>")
  else
    match fs.getsize entry_path with
    | Except.error msg => Except.error msg
    | Except.ok size =>
      Except.ok (str "<li><a href=\"" ++ url_path ++ str "\">" ++ e ++ str "</a> (" ++
        format_size size ++ str ")</li>")

/-- Python str.startswith with a dot argument, the hidden file test. -/
def hiddenName (e : Str) : Bool := e.head? == some '.'

/-- Loop of list_dir over the sorted entries, skipping hidden names; the
first OSError raised while building an item aborts the loop, as the
exception does in the source. -/
def entryItems (fs : FS) (path full_path : Str) : List Str → Except Str (List Str)
  | [] => Except.ok []
  | e :: rest =>
    if hiddenName e then entryItems fs path full_path rest
    else
      match entry_item fs path full_path e with
      | Except.error msg => Except.error msg
      | Except.ok item =>
        match entryItems fs path full_path rest with
        | Except.error msg => Except.error msg
        | Except.ok items => Except.ok (item :: items)

/-- Python str.join with a fixed separator. -/
def joinSep (sep : Str) : List Str → Str
  | [] => []
  | [x] => x
  | x :: y :: rest => x ++ sep ++ joinSep sep (y :: rest)

/-- Listing page template segment before the first path occurrence. -/
def listingPageA : Str := str "\n    <html>\n    <head><title>Directory: "

/-- Listing page template segment between the two path occurrences. -/
def listingPageB : Str := str "</title></head>\n    <body>\n        <h1>Directory: "

/-- Listing page template segment before the entries. -/
def listingPageC : Str := str "</h1>\n        <ul>\n        "

/-- Listing page template segment after the entries. -/
def listingPageD : Str :=
  str "\n        </ul>\n        <hr>\n        <p><em>Simple Python Web Server</em></p>\n    </body>\n    </html>\n    "

/-- Listing page template instantiated with path and joined entries. -/
def listing_page (path entries : Str) : Str :=
  listingPageA ++ path ++ listingPageB ++ path ++ listingPageC ++ entries ++ listingPageD

/-- Separator placed between listing items. -/
def itemSep : Str := str "\n        "

/-- Directory listing of list_dir: sort, skip hidden entries, optional
parent link, then the listing page; an OSError of the enumeration or of a
size lookup inside the loop reaches the same handler here and becomes the
cannot-be-listed error report. -/
def list_dir (fs : FS) (path full_path : Str) : Response :=
  match fs.listdir full_path with
  | Except.error msg =>
    handle_error path (sq ++ path ++ sq ++ str " cannot be listed: " ++ msg)
  | Except.ok entries =>
    let sorted := List.insertionSort SLe entries
    let parentPart : List Str := if path ≠ str "/" then [parent_item path] else []
    match entryItems fs path full_path sorted with
    | Except.error msg =>
      handle_error path (sq ++ path ++ sq ++ str " cannot be listed: " ++ msg)
    | Except.ok items =>
      send_content path (listing_page path (joinSep itemSep (parentPart ++ items))) 200

/-- Result of a completed child process. -/
structure ProcResult where
  returncode : Int
  stdout : Str
  stderr : Str

/-- Outcome of attempting to run the script: completion after a wall-clock
duration with a result, or a launch failure with a message. -/
inductive ScriptOutcome where
  | completes (duration : Nat) (res : ProcResult)
  | launchFailure (msg : Str)

/-- Oracle for the child-process boundary: the outcome of running a given
script with a given path info value. -/
abbrev Oracle := Str → Str → ScriptOutcome

/-- CGI execution of run_cgi: the subprocess call with the fixed deadline
of 30 time units; exit code zero serves stdout, any other exit code
reports stderr; expiry of the deadline or a launch failure also become
error reports, handled inside this function. -/
def run_cgi (outcome : ScriptOutcome) (path : Str) : Response :=
  match outcome with
  | ScriptOutcome.launchFailure msg =>
    handle_error path (str "Cannot execute CGI script: " ++ msg)
  | ScriptOutcome.completes duration res =>
    if 30 < duration then handle_error path (str "CGI script timed out")
    else if res.returncode = 0 then send_content path res.stdout 200
    else handle_error path (str "CGI script error: " ++ res.stderr)

/-- Static file serving of handle_file: read then send; a read failure is
handled inside this function and becomes an error report. -/
def handle_file (fs : FS) (path full_path : Str) : Response :=
  match fs.read full_path with
  | Except.ok content => send_content path content 200
  | Except.error msg =>
    handle_error path (sq ++ full_path ++ sq ++ str " cannot be read: " ++ msg)

/-- One predicate and action pair of the chain; an action returning an
Except.error models raising ServerException to the top-level handler. -/
structure Case where
  test : FS → Ctx → Bool
  act : FS → Oracle → Ctx → Except Str Response

/-- Case for missing resources. -/
def CaseNoFile : Case where
  test := fun fs ctx => !(fs.pathExists ctx.full_path)
  act := fun _ _ ctx => Except.error (sq ++ ctx.path ++ sq ++ str " not found")

/-- Case for python scripts, placed before the plain existing file case. -/
def CaseCgiFile : Case where
  test := fun fs ctx => fs.isFile ctx.full_path && endswith ctx.full_path (str ".py")
  act := fun _ oracle ctx => Except.ok (run_cgi (oracle ctx.full_path ctx.path) ctx.path)

/-- Case for existing regular files. -/
def CaseExistingFile : Case where
  test := fun fs ctx => fs.isFile ctx.full_path
  act := fun fs _ ctx => Except.ok (handle_file fs ctx.path ctx.full_path)

/-- Case for directories holding an index file. -/
def CaseDirectoryIndexFile : Case where
  test := fun fs ctx => fs.isDir ctx.full_path && fs.isFile (index_path ctx)
  act := fun fs _ ctx => Except.ok (handle_file fs ctx.path (index_path ctx))

/-- Case for directories without an index file. -/
def CaseDirectoryNoIndex : Case where
  test := fun fs ctx => fs.isDir ctx.full_path && !(fs.isFile (index_path ctx))
  act := fun fs _ ctx => Except.ok (list_dir fs ctx.path ctx.full_path)

/-- Fallback case that always matches. -/
def CaseAlwaysFail : Case where
  test := fun _ _ => true
  act := fun _ _ ctx => Except.error (str "Unknown object " ++ sq ++ ctx.path ++ sq)

/-- Ordered case list of RequestHandler; the order is significant. -/
def cases : List Case :=
  [CaseNoFile, CaseCgiFile, CaseExistingFile, CaseDirectoryIndexFile,
   CaseDirectoryNoIndex, CaseAlwaysFail]

/-- Boolean vector of the six case predicates at a given request. -/
def caseTests (fs : FS) (ctx : Ctx) : List Bool :=
  cases.map (fun c => c.test fs ctx)

/-- Full path computed in do_GET from the working directory and the decoded
request path. -/
def full_path_of (cwd rawPath : Str) : Str :=
  osJoin cwd (lstripSlash (unquote rawPath))

/-- Dispatch of the case loop: the first matching case acts; a raised
ServerException is converted by the top-level handler into an error page.
The none result models the loop ending with no matching case, in which no
response at all is written. -/
def runCaseChain (fs : FS) (oracle : Oracle) (ctx : Ctx) : Option Response :=
  match List.find? (fun c => c.test fs ctx) cases with
  | none => none
  | some c =>
    match c.act fs oracle ctx with
    | Except.ok r => some r
    | Except.error msg => some (handle_error ctx.path msg)

/-- Top level do_GET: decode, join, sandbox check, then the case loop; any
ServerException, including Access denied, becomes a handle_error page. -/
def do_GET (fs : FS) (oracle : Oracle) (cwd rawPath : Str) : Option Response :=
  let path := unquote rawPath
  let fp := full_path_of cwd rawPath
  if !(List.isPrefixOf cwd fp) then some (handle_error path (str "Access denied"))
  else runCaseChain fs oracle ⟨path, fp⟩

/-- Helper splitting a path at slashes, accumulator based. -/
def splitSlashAux : Str → Str → List Str
  | [], acc => [acc.reverse]
  | '/' :: rest, acc => acc.reverse :: splitSlashAux rest []
  | c :: rest, acc => splitSlashAux rest (c :: acc)

/-- Splitting a path at slashes. -/
def splitSlash (p : Str) : List Str := splitSlashAux p []

/-- Canonical component stack: empty and dot segments vanish, a dot-dot
segment pops, everything else pushes. -/
def normComps (comps : List Str) : List Str :=
  comps.foldl
    (fun acc c =>
      if c = [] ∨ c = str "." then acc
      else if c = str ".." then acc.dropLast
      else acc ++ [c])
    []

/-- Modelled from the spec: canonical absolute form of a joined path,
resolving dot and dot-dot segments lexically as the host filesystem would
for a path free of symbolic links. The source performs no canonicalization
step at all; this definition exists only to state where a joined path
resolves. -/
def normPath (p : Str) : Str :=
  '/' :: joinSep (str "/") (normComps (splitSlash p))

/-- Visible names of a listing: the sorted children with hidden names
removed; list_dir renders exactly these, in this order. -/
def visibleEntries (children : List Str) : List Str :=
  (List.insertionSort SLe children).filter (fun e => !hiddenName e)

/-- Parent link part of a listing: one item unless the path is the root. -/
def parentPartOf (path : Str) : List Str :=
  if path ≠ str "/" then [parent_item path] else []

/-- Filesystem oracle on which nothing exists, used at concrete inputs. -/
def fsEmpty : FS where
  pathExists := fun _ => false
  isFile := fun _ => false
  isDir := fun _ => false
  read := fun _ => Except.error []
  listdir := fun _ => Except.error []
  getsize := fun _ => Except.ok 0

/-- Process oracle used where the child process boundary is irrelevant. -/
def oracle0 : Oracle := fun _ _ => ScriptOutcome.completes 0 ⟨0, [], []⟩

/-- Concrete request context used at concrete inputs. -/
def ctx0 : Ctx := ⟨str "/x", str "/srv/www/x"⟩

/-- Filesystem oracle holding a single python script. -/
def fsPy : FS where
  pathExists := fun p => p == str "/srv/www/t.py"
  isFile := fun p => p == str "/srv/www/t.py"
  isDir := fun _ => false
  read := fun _ => Except.error []
  listdir := fun _ => Except.error []
  getsize := fun _ => Except.ok 0

/-- Concrete request context naming the python script. -/
def ctxPy : Ctx := ⟨str "/t.py", str "/srv/www/t.py"⟩

/-- Filesystem oracle holding a single readable text file. -/
def fsTxt : FS where
  pathExists := fun p => p == str "/srv/www/a.txt"
  isFile := fun p => p == str "/srv/www/a.txt"
  isDir := fun _ => false
  read := fun p => if p == str "/srv/www/a.txt" then Except.ok (str "hello") else Except.error []
  listdir := fun _ => Except.error []
  getsize := fun _ => Except.ok 5

/-- Filesystem oracle holding one directory with two visible children and
one hidden child; the child named a is itself a directory. -/
def fsDir : FS where
  pathExists := fun p =>
    p == str "/srv/www/d" || p == str "/srv/www/d/a" || p == str "/srv/www/d/b.txt"
  isFile := fun p => p == str "/srv/www/d/b.txt"
  isDir := fun p => p == str "/srv/www/d" || p == str "/srv/www/d/a"
  read := fun _ => Except.error []
  listdir := fun p =>
    if p == str "/srv/www/d" then Except.ok [str "b.txt", str ".hidden", str "a"]
    else Except.error []
  getsize := fun _ => Except.ok 7

/-- Filesystem oracle holding a file whose read raises an IOError. -/
def fsBadRead : FS where
  pathExists := fun p => p == str "/srv/www/f.txt"
  isFile := fun p => p == str "/srv/www/f.txt"
  isDir := fun _ => false
  read := fun _ => Except.error (str "disk failure")
  listdir := fun _ => Except.error []
  getsize := fun _ => Except.ok 0

/-- Concrete request context naming the unreadable file. -/
def ctxBad : Ctx := ⟨str "/f.txt", str "/srv/www/f.txt"⟩

/- Helper lemmas shared by the claim theorems. -/

/-- Stripping leading slashes leaves no leading slash. -/
theorem lstripSlash_head : ∀ p : Str, (lstripSlash p).head? ≠ some '/' := by
  intro p
  induction p with
  | nil => simp [lstripSlash]
  | cons c rest ih =>
    by_cases h : c = '/'
    · simpa [lstripSlash, h] using ih
    · simp [lstripSlash, h]

/-- An empty list is a boolean prefix of everything. -/
theorem isPrefixOf_nil_left : ∀ b : Str, List.isPrefixOf [] b = true := by
  intro b; cases b <;> rfl

/-- A list is a boolean prefix of itself followed by anything. -/
theorem isPrefixOf_append_self : ∀ a b : Str, List.isPrefixOf a (a ++ b) = true := by
  intro a b
  induction a with
  | nil => exact isPrefixOf_nil_left b
  | cons x xs ih => simp [List.isPrefixOf, ih]

/-- The joined full path always passes the startswith sandbox check. -/
theorem full_path_startswith (cwd rawPath : Str) :
    List.isPrefixOf cwd (full_path_of cwd rawPath) = true := by
  unfold full_path_of osJoin
  have hb := lstripSlash_head (unquote rawPath)
  split_ifs with h1 h2 h3
  · exact absurd h1 hb
  · subst h2; exact isPrefixOf_nil_left _
  · exact isPrefixOf_append_self cwd _
  · exact isPrefixOf_append_self cwd _

/-- When the skipping loop of list_dir succeeds, the produced items are in
one to one correspondence with the non-hidden entries, in order: each item
is the successful rendering of its entry. -/
theorem entryItems_ok (fs : FS) (path fp : Str) :
    ∀ l items : List Str, entryItems fs path fp l = Except.ok items →
      List.Forall₂ (fun e item => entry_item fs path fp e = Except.ok item)
        (l.filter (fun e => !hiddenName e)) items := by
  intro l
  induction l with
  | nil =>
    intro items h
    simp only [entryItems, Except.ok.injEq] at h
    subst h
    simp
  | cons e rest ih =>
    intro items h
    cases hh : hiddenName e with
    | true =>
      rw [List.filter_cons_of_neg (by simp [hh])]
      refine ih items ?_
      simpa [entryItems, hh] using h
    | false =>
      rw [List.filter_cons_of_pos (by simp [hh])]
      cases hen : entry_item fs path fp e with
      | error msg => simp [entryItems, hh, hen] at h
      | ok item =>
        cases hrest : entryItems fs path fp rest with
        | error msg => simp [entryItems, hh, hen, hrest] at h
        | ok items2 =>
          simp [entryItems, hh, hen, hrest] at h
          subst h
          exact List.Forall₂.cons hen (ih items2 hrest)

/-- Code point comparison of strings is total. -/
theorem strLe_total : ∀ a b : Str, strLe a b = true ∨ strLe b a = true := by
  intro a
  induction a with
  | nil => intro b; exact Or.inl rfl
  | cons x xs ih =>
    intro b
    cases b with
    | nil => exact Or.inr rfl
    | cons y ys =>
      by_cases h1 : x.toNat < y.toNat
      · left; simp [strLe, h1]
      · by_cases h2 : y.toNat < x.toNat
        · right; simp [strLe, h2]
        · simpa [strLe, h1, h2] using ih ys

/-- Code point comparison of strings is transitive. -/
theorem strLe_trans : ∀ a b c : Str, strLe a b = true → strLe b c = true → strLe a c = true := by
  intro a
  induction a with
  | nil => intro b c _ _; rfl
  | cons x xs ih =>
    intro b c h1 h2
    cases b with
    | nil => simp [strLe] at h1
    | cons y ys =>
      cases c with
      | nil => simp [strLe] at h2
      | cons z zs =>
        by_cases hxy : x.toNat < y.toNat <;> by_cases hyx : y.toNat < x.toNat <;>
          by_cases hyz : y.toNat < z.toNat <;> by_cases hzy : z.toNat < y.toNat <;>
            simp [strLe, hxy, hyx, hyz, hzy] at h1 h2 ⊢ <;>
              first
                | omega
                | (exact Or.inl (by omega))
                | (exact Or.inr ⟨by omega, ih ys zs h1 h2⟩)

instance : IsTotal Str SLe := ⟨strLe_total⟩

instance : IsTrans Str SLe := ⟨strLe_trans⟩

/-- The message is an infix of the error page body. -/
theorem msg_infix_error_body (path msg : Str) : msg <:+: (handle_error path msg).body :=
  ⟨errorPageA ++ path ++ errorPageB, errorPageC, by
    simp [handle_error, send_content, error_page]⟩

/-- The request path is an infix of the error page body. -/
theorem path_infix_error_body (path msg : Str) : path <:+: (handle_error path msg).body :=
  ⟨errorPageA, errorPageB ++ msg ++ errorPageC, by
    simp [handle_error, send_content, error_page]⟩

/-- C2: the sandbox violation branch of do_GET is unreachable. For every
working directory and every request path string the joined full path,
built from the working directory and the path with leading slashes
stripped, starts with the working directory, so do_GET never raises the
Access denied ServerException and always continues into the case chain. -/
theorem ws_C2 (cwd rawPath : Str) (fs : FS) (oracle : Oracle) :
    List.isPrefixOf cwd (full_path_of cwd rawPath) = true ∧
    do_GET fs oracle cwd rawPath =
      runCaseChain fs oracle ⟨unquote rawPath, full_path_of cwd rawPath⟩ := by
  refine ⟨full_path_startswith cwd rawPath, ?_⟩
  simp [do_GET, full_path_startswith cwd rawPath]

/-- C1: path resolution in do_GET does not stop dot-dot traversal. At the
working directory /srv/www and the raw path /../../etc/passwd, equally in
its percent encoded form, the joined full path passes the startswith
sandbox check, canonically resolves to /etc/passwd outside the root, and
dispatch proceeds into the case chain instead of failing with Access
denied; the claimed safety property fails on the code. -/
theorem ws_C1 :
    full_path_of (str "/srv/www") (str "/../../etc/passwd") =
      str "/srv/www/../../etc/passwd" ∧
    full_path_of (str "/srv/www") (str "/%2e%2e/%2e%2e/etc/passwd") =
      str "/srv/www/../../etc/passwd" ∧
    List.isPrefixOf (str "/srv/www")
      (full_path_of (str "/srv/www") (str "/../../etc/passwd")) = true ∧
    normPath (full_path_of (str "/srv/www") (str "/../../etc/passwd")) =
      str "/etc/passwd" ∧
    List.isPrefixOf (str "/srv/www")
      (normPath (full_path_of (str "/srv/www") (str "/../../etc/passwd"))) = false ∧
    do_GET fsEmpty oracle0 (str "/srv/www") (str "/../../etc/passwd") =
      some (handle_error (str "/../../etc/passwd")
        (sq ++ str "/../../etc/passwd" ++ sq ++ str " not found")) := by
  refine ⟨by decide, by decide, by decide, by decide, by decide, ?_⟩
  rfl

/-- C3 counterexample: precisely one of the six case predicates holding is
false; on an empty filesystem both the missing-resource predicate and the
always-true fallback predicate hold, so two of the six predicates return
true at once. -/
theorem ws_C3_cx : ¬ ((caseTests fsEmpty ctx0).count true = 1) := by decide

/-- C3 amended: at least one of the six case predicates always returns
true, the fallback being constantly true, and dispatch selects exactly one
case, the first whose predicate holds: the selected index is in range, its
predicate holds, every earlier predicate fails, and any index with that
property is the selected one; so the case loop always produces a result.
The predicates themselves are not mutually exclusive, since the fallback
overlaps every other case. -/
theorem ws_C3 (fs : FS) (oracle : Oracle) (ctx : Ctx) :
    (∃ c ∈ cases, c.test fs ctx = true) ∧
    (runCaseChain fs oracle ctx).isSome = true ∧
    List.findIdx (fun c => c.test fs ctx) cases < cases.length ∧
    (caseTests fs ctx).getD (List.findIdx (fun c => c.test fs ctx) cases) false = true ∧
    (∀ j, j < List.findIdx (fun c => c.test fs ctx) cases →
      (caseTests fs ctx).getD j false = false) ∧
    (∀ k, k < cases.length → (caseTests fs ctx).getD k false = true →
      (∀ j, j < k → (caseTests fs ctx).getD j false = false) →
      k = List.findIdx (fun c => c.test fs ctx) cases) := by
  have hmem : CaseAlwaysFail ∈ cases := by simp [cases]
  have htrue : CaseAlwaysFail.test fs ctx = true := rfl
  refine ⟨⟨CaseAlwaysFail, hmem, htrue⟩, ?_, ?_⟩
  · have hsome : (List.find? (fun c => c.test fs ctx) cases).isSome = true := by
      rw [List.find?_isSome]
      exact ⟨CaseAlwaysFail, hmem, htrue⟩
    obtain ⟨c, hc⟩ := Option.isSome_iff_exists.mp hsome
    cases hact : c.act fs oracle ctx <;> simp [runCaseChain, hc, hact]
  · cases h1 : CaseNoFile.test fs ctx <;> cases h2 : CaseCgiFile.test fs ctx <;>
      cases h3 : CaseExistingFile.test fs ctx <;>
        cases h4 : CaseDirectoryIndexFile.test fs ctx <;>
          cases h5 : CaseDirectoryNoIndex.test fs ctx <;>
    all_goals
      simp only [caseTests, cases, List.map_cons, List.map_nil, List.findIdx_cons,
        List.length_cons, List.length_nil, h1, h2, h3, h4, h5, htrue,
        cond_true, cond_false]
    all_goals decide

/-- C3 witness: on the empty filesystem the missing-resource case is the
unique first match, at index zero. -/
theorem ws_C3_w : 0 = List.findIdx (fun c => c.test fsEmpty ctx0) cases :=
  (ws_C3 fsEmpty oracle0 ctx0).2.2.2.2.2 0 (by decide) (by decide)
    (fun j hj => absurd hj (Nat.not_lt_zero j))

/-- C4: the case list is exactly the fixed order NoFile, Cgi, ExistingFile,
DirectoryIndexFile, DirectoryNoIndex, AlwaysFail, and for every existing
regular file whose full path ends in the python extension the first
matching case is the CGI case, so dispatch runs the script instead of
serving the file as static content. -/
theorem ws_C4 :
    cases = [CaseNoFile, CaseCgiFile, CaseExistingFile, CaseDirectoryIndexFile,
      CaseDirectoryNoIndex, CaseAlwaysFail] ∧
    ∀ (fs : FS) (oracle : Oracle) (ctx : Ctx),
      fs.isFile ctx.full_path = true →
      fs.pathExists ctx.full_path = true →
      endswith ctx.full_path (str ".py") = true →
      List.find? (fun c => c.test fs ctx) cases = some CaseCgiFile ∧
      runCaseChain fs oracle ctx =
        some (run_cgi (oracle ctx.full_path ctx.path) ctx.path) := by
  refine ⟨rfl, ?_⟩
  intro fs oracle ctx h1 h2 h3
  have hfind : List.find? (fun c => c.test fs ctx) cases = some CaseCgiFile := by
    simp [cases, List.find?, CaseNoFile, CaseCgiFile, h1, h2, h3]
  exact ⟨hfind, by simp [runCaseChain, hfind, CaseCgiFile]⟩

/-- C4 witness: on a filesystem holding one python script, dispatch at that
script selects the CGI case and returns the CGI execution response. -/
theorem ws_C4_w :
    List.find? (fun c => c.test fsPy ctxPy) cases = some CaseCgiFile ∧
    runCaseChain fsPy oracle0 ctxPy =
      some (run_cgi (oracle0 ctxPy.full_path ctxPy.path) ctxPy.path) :=
  ws_C4.2 fsPy oracle0 ctxPy (by decide) (by decide) (by decide)

/-- C5: for a script run that completes within the deadline, the response
has status 200 exactly when the exit code is zero; on a non-zero exit code
run_cgi reports an error whose message is the captured stderr prefixed by
the CGI error text, that message appears in the 404 body, and the response
is independent of the captured stdout, which is therefore never used as
the response body. -/
theorem ws_C5 (path : Str) (duration : Nat) (res : ProcResult)
    (hd : ¬ 30 < duration) :
    ((run_cgi (ScriptOutcome.completes duration res) path).status = 200 ↔
      res.returncode = 0) ∧
    (res.returncode ≠ 0 →
      run_cgi (ScriptOutcome.completes duration res) path =
        handle_error path (str "CGI script error: " ++ res.stderr) ∧
      (str "CGI script error: " ++ res.stderr) <:+:
        (run_cgi (ScriptOutcome.completes duration res) path).body ∧
      ∀ out : Str,
        run_cgi (ScriptOutcome.completes duration ⟨res.returncode, out, res.stderr⟩) path =
          run_cgi (ScriptOutcome.completes duration res) path) := by
  constructor
  · by_cases hrc : res.returncode = 0
    · simp [run_cgi, hd, hrc, send_content]
    · simp [run_cgi, hd, hrc, handle_error, send_content]
  · intro hrc
    refine ⟨by simp [run_cgi, hd, hrc], ?_, ?_⟩
    · have h : run_cgi (ScriptOutcome.completes duration res) path =
          handle_error path (str "CGI script error: " ++ res.stderr) := by
        simp [run_cgi, hd, hrc]
      rw [h]
      exact msg_infix_error_body path (str "CGI script error: " ++ res.stderr)
    · intro out
      simp [run_cgi, hd, hrc]

/-- C5 witness: a concrete failing script run within the deadline yields
the stderr-derived error page. -/
theorem ws_C5_w :
    run_cgi (ScriptOutcome.completes 1 ⟨1, str "partial output", str "boom"⟩) (str "/t.py") =
      handle_error (str "/t.py") (str "CGI script error: " ++ str "boom") :=
  ((ws_C5 (str "/t.py") 1 ⟨1, str "partial output", str "boom"⟩ (by decide)).2
    (by decide)).1

/-- C6: run_cgi enforces the fixed deadline of 30 time units: every run
whose duration exceeds 30 produces the timed-out error report, whose
content is independent of the process result, so no partial stdout ever
reaches the response; every run within the deadline takes the normal exit
code branch instead. -/
theorem ws_C6 (path : Str) (duration : Nat) (res : ProcResult) :
    (30 < duration →
      run_cgi (ScriptOutcome.completes duration res) path =
        handle_error path (str "CGI script timed out") ∧
      ∀ res2 : ProcResult,
        run_cgi (ScriptOutcome.completes duration res2) path =
          run_cgi (ScriptOutcome.completes duration res) path) ∧
    (¬ 30 < duration →
      run_cgi (ScriptOutcome.completes duration res) path =
        if res.returncode = 0 then send_content path res.stdout 200
        else handle_error path (str "CGI script error: " ++ res.stderr)) := by
  constructor
  · intro h
    exact ⟨by simp [run_cgi, h], fun res2 => by simp [run_cgi, h]⟩
  · intro h
    simp [run_cgi, h]

/-- C6 witness: a concrete run of 31 time units is reported as timed out
and its partial stdout is discarded. -/
theorem ws_C6_w :
    run_cgi (ScriptOutcome.completes 31 ⟨0, str "partial output", []⟩) (str "/t.py") =
      handle_error (str "/t.py") (str "CGI script timed out") :=
  ((ws_C6 (str "/t.py") 31 ⟨0, str "partial output", []⟩).1 (by decide)).1

/-- C7: for every existing regular file whose path does not end in the
python extension and whose read succeeds, do_GET returns status 200 with
body bytes identical to the file content on disk. -/
theorem ws_C7 (fs : FS) (oracle : Oracle) (cwd rawPath content : Str)
    (hf : fs.isFile (full_path_of cwd rawPath) = true)
    (he : fs.pathExists (full_path_of cwd rawPath) = true)
    (hpy : endswith (full_path_of cwd rawPath) (str ".py") = false)
    (hr : fs.read (full_path_of cwd rawPath) = Except.ok content) :
    do_GET fs oracle cwd rawPath =
      some ⟨200, contentTypeFor (unquote rawPath), content⟩ := by
  have hpre := full_path_startswith cwd rawPath
  have hchain : do_GET fs oracle cwd rawPath =
      runCaseChain fs oracle ⟨unquote rawPath, full_path_of cwd rawPath⟩ := by
    simp [do_GET, hpre]
  rw [hchain]
  have hfind : List.find?
      (fun c => c.test fs ⟨unquote rawPath, full_path_of cwd rawPath⟩) cases =
      some CaseExistingFile := by
    simp [cases, List.find?, CaseNoFile, CaseCgiFile, CaseExistingFile, hf, he, hpy]
  simp [runCaseChain, hfind, CaseExistingFile, handle_file, hr, send_content]

/-- C7 witness: a concrete text file is served with status 200 and its
exact content. -/
theorem ws_C7_w :
    do_GET fsTxt oracle0 (str "/srv/www") (str "/a.txt") =
      some ⟨200, contentTypeFor (unquote (str "/a.txt")), str "hello"⟩ :=
  ws_C7 fsTxt oracle0 (str "/srv/www") (str "/a.txt") (str "hello")
    (by decide) (by decide) (by decide) (by rfl)

/-- C8: for a directory whose enumeration succeeds, when every size lookup
of the loop also succeeds list_dir renders the listing page whose items
are an optional parent link followed by exactly the renderings of the
non-hidden children in sorted order, and when a size lookup raises an
OSError the same cannot-be-listed error report is produced instead; the
visible sequence is a permutation of the non-hidden children, it is sorted
ascending by code point, each directory child is rendered as a
trailing-slash link without a size while every other child carries its
formatted size and propagates a size lookup failure, and the parent link
is omitted exactly when the request path is the root. -/
theorem ws_C8 (fs : FS) (path fp : Str) (children : List Str)
    (hl : fs.listdir fp = Except.ok children) :
    (∀ items : List Str,
      entryItems fs path fp (List.insertionSort SLe children) = Except.ok items →
      list_dir fs path fp =
        send_content path (listing_page path (joinSep itemSep
          (parentPartOf path ++ items))) 200 ∧
      List.Forall₂ (fun e item => entry_item fs path fp e = Except.ok item)
        (visibleEntries children) items) ∧
    (∀ msg : Str,
      entryItems fs path fp (List.insertionSort SLe children) = Except.error msg →
      list_dir fs path fp =
        handle_error path (sq ++ path ++ sq ++ str " cannot be listed: " ++ msg)) ∧
    (visibleEntries children).Perm (children.filter (fun e => !hiddenName e)) ∧
    List.Pairwise SLe (visibleEntries children) ∧
    (∀ e,
      (fs.isDir (osJoin fp e) = true →
        entry_item fs path fp e = Except.ok
          (str "<li><a href=\"" ++ (rstripSlash path ++ str "/" ++ e) ++ str "/\">" ++
            e ++ str "/</a></li>")) ∧
      (fs.isDir (osJoin fp e) = false →
        (∀ n, fs.getsize (osJoin fp e) = Except.ok n →
          entry_item fs path fp e = Except.ok
            (str "<li><a href=\"" ++ (rstripSlash path ++ str "/" ++ e) ++ str "\">" ++
              e ++ str "</a> (" ++ format_size n ++ str ")</li>")) ∧
        (∀ msg, fs.getsize (osJoin fp e) = Except.error msg →
          entry_item fs path fp e = Except.error msg))) ∧
    (parentPartOf path = [] ↔ path = str "/") := by
  refine ⟨?_, ?_, ?_, ?_, ?_, ?_⟩
  · intro items hitems
    constructor
    · simp [list_dir, hl, hitems, parentPartOf]
    · exact entryItems_ok fs path fp _ items hitems
  · intro msg hmsg
    simp [list_dir, hl, hmsg]
  · exact (List.perm_insertionSort SLe children).filter _
  · exact List.Pairwise.sublist (List.filter_sublist _)
      (List.sorted_insertionSort SLe children)
  · intro e
    refine ⟨fun hd => ?_, fun hd => ⟨fun n hn => ?_, fun msg hm => ?_⟩⟩
    · simp [entry_item, hd]
    · simp [entry_item, hd, hn]
    · simp [entry_item, hd, hm]
  · constructor
    · intro h
      by_contra hne
      simp [parentPartOf, hne] at h
    · intro h
      simp [parentPartOf, h]

/-- C8 witness: a concrete directory with children b.txt, .hidden and a
renders the parent link plus the directory link for a and the sized line
for b.txt, in sorted order, and the visible sequence is sorted. -/
theorem ws_C8_w :
    fsDir.listdir (str "/srv/www/d") = Except.ok [str "b.txt", str ".hidden", str "a"] ∧
    (list_dir fsDir (str "/d") (str "/srv/www/d") =
      send_content (str "/d") (listing_page (str "/d") (joinSep itemSep
        (parentPartOf (str "/d") ++
          [str "<li><a href=\"/d/a/\">a/</a></li>",
           str "<li><a href=\"/d/b.txt\">b.txt</a> (7.0 B)</li>"]))) 200 ∧
      List.Forall₂
        (fun e item => entry_item fsDir (str "/d") (str "/srv/www/d") e = Except.ok item)
        (visibleEntries [str "b.txt", str ".hidden", str "a"])
        [str "<li><a href=\"/d/a/\">a/</a></li>",
         str "<li><a href=\"/d/b.txt\">b.txt</a> (7.0 B)</li>"]) ∧
    List.Pairwise SLe (visibleEntries [str "b.txt", str ".hidden", str "a"]) :=
  ⟨by rfl,
   (ws_C8 fsDir (str "/d") (str "/srv/www/d")
     [str "b.txt", str ".hidden", str "a"] (by rfl)).1
     [str "<li><a href=\"/d/a/\">a/</a></li>",
      str "<li><a href=\"/d/b.txt\">b.txt</a> (7.0 B)</li>"] (by rfl),
   (ws_C8 fsDir (str "/d") (str "/srv/www/d")
     [str "b.txt", str ".hidden", str "a"] (by rfl)).2.2.2.1⟩

/-- C9: format_size renders 500 bytes, 2048 bytes and 1572864 bytes as the
claimed strings, renders the reachable exact ties 1280, 2304 and 1310720
with the half-to-even rounding of the source formatter, and in general
picks the base 1024 unit by escalating exactly while the running value is
at least 1024: a size below 1024 is rendered in B, below 1024 squared in
KB, and so on through MB and GB up to TB, always with one decimal digit of
the exact scaled value. The general unit clauses are scoped to sizes below
2 to the 53, where the float divisions of the source are exact and the
exact rational model coincides with the source. -/
theorem ws_C9 :
    format_size 500 = str "500.0 B" ∧
    format_size 2048 = str "2.0 KB" ∧
    format_size 1572864 = str "1.5 MB" ∧
    format_size 1280 = str "1.2 KB" ∧
    format_size 2304 = str "2.2 KB" ∧
    format_size 1310720 = str "1.2 MB" ∧
    (∀ s : Nat, s < 1024 → format_size s = fmt1 s 1 ++ str " B") ∧
    (∀ s : Nat, s < 2 ^ 53 → 1024 ≤ s → s < 1024 ^ 2 →
      format_size s = fmt1 s 1024 ++ str " KB") ∧
    (∀ s : Nat, s < 2 ^ 53 → 1024 ^ 2 ≤ s → s < 1024 ^ 3 →
      format_size s = fmt1 s (1024 ^ 2) ++ str " MB") ∧
    (∀ s : Nat, s < 2 ^ 53 → 1024 ^ 3 ≤ s → s < 1024 ^ 4 →
      format_size s = fmt1 s (1024 ^ 3) ++ str " GB") ∧
    (∀ s : Nat, s < 2 ^ 53 → 1024 ^ 4 ≤ s →
      format_size s = fmt1 s (1024 ^ 4) ++ str " TB") := by
  refine ⟨by decide, by decide, by decide, by decide, by decide, by decide,
    ?_, ?_, ?_, ?_, ?_⟩
  · intro s h
    simp only [format_size, formatSizeAux]
    rw [if_pos (by omega), List.append_assoc]
    rfl
  · intro s _ h1 h2
    norm_num at h2
    simp only [format_size, formatSizeAux]
    rw [if_neg (by omega), if_pos (by omega), List.append_assoc]
    rfl
  · intro s _ h1 h2
    norm_num at h1 h2
    simp only [format_size, formatSizeAux]
    rw [if_neg (by omega), if_neg (by omega), if_pos (by omega), List.append_assoc]
    rfl
  · intro s _ h1 h2
    norm_num at h1 h2
    simp only [format_size, formatSizeAux]
    rw [if_neg (by omega), if_neg (by omega), if_neg (by omega), if_pos (by omega),
      List.append_assoc]
    rfl
  · intro s _ h1
    norm_num at h1
    simp only [format_size, formatSizeAux]
    rw [if_neg (by omega), if_neg (by omega), if_neg (by omega), if_neg (by omega)]
    rfl

/-- C9 witness: the KB branch applied at 2048 bytes. -/
theorem ws_C9_w : 1024 ≤ 2048 ∧ format_size 2048 = fmt1 2048 1024 ++ str " KB" :=
  ⟨by decide, ws_C9.2.2.2.2.2.2.2.1 2048 (by decide) (by decide) (by decide)⟩

/-- C10 counterexample: not every failure is caught at the top-level
handler. On a filesystem whose read raises an IOError, the existing-file
action catches the failure itself and returns Except.ok carrying the
already-built error page, so no failure propagates to the top-level catch
of do_GET for this input. -/
theorem ws_C10_cx :
    fsBadRead.read ctxBad.full_path = Except.error (str "disk failure") ∧
    CaseExistingFile.act fsBadRead oracle0 ctxBad =
      Except.ok (handle_error ctxBad.path
        (sq ++ ctxBad.full_path ++ sq ++ str " cannot be read: " ++ str "disk failure")) :=
  ⟨rfl, rfl⟩

/-- C10 amended: handle_error always produces a 404 response whose body
contains both the request path and the message, do_GET always produces
exactly one response and never throws, and every ServerException raised by
a case action is caught once at the top level and routed through the
handle_error sink; failures of reading, listing and script execution are
instead caught inside the acting component and routed to the same sink
there. -/
theorem ws_C10 (path msg : Str) :
    (handle_error path msg).status = 404 ∧
    path <:+: (handle_error path msg).body ∧
    msg <:+: (handle_error path msg).body ∧
    (∀ (fs : FS) (oracle : Oracle) (cwd rawPath : Str),
      (do_GET fs oracle cwd rawPath).isSome = true) ∧
    (∀ (fs : FS) (oracle : Oracle) (ctx : Ctx) (c : Case) (m : Str),
      List.find? (fun k => k.test fs ctx) cases = some c →
      c.act fs oracle ctx = Except.error m →
      runCaseChain fs oracle ctx = some (handle_error ctx.path m)) := by
  refine ⟨rfl, path_infix_error_body path msg, msg_infix_error_body path msg, ?_, ?_⟩
  · intro fs oracle cwd rawPath
    have hsome : (List.find?
        (fun k => k.test fs ⟨unquote rawPath, full_path_of cwd rawPath⟩)
        cases).isSome = true := by
      rw [List.find?_isSome]
      exact ⟨CaseAlwaysFail, by simp [cases], rfl⟩
    obtain ⟨c, hc⟩ := Option.isSome_iff_exists.mp hsome
    have hchain : (runCaseChain fs oracle
        ⟨unquote rawPath, full_path_of cwd rawPath⟩).isSome = true := by
      cases hact : c.act fs oracle ⟨unquote rawPath, full_path_of cwd rawPath⟩ <;>
        simp [runCaseChain, hc, hact]
    simp [do_GET, full_path_startswith cwd rawPath, hchain]
  · intro fs oracle ctx c m hfind hact
    simp [runCaseChain, hfind, hact]

/-- C10 witness: a ServerException raised by the missing-resource action on
the empty filesystem surfaces through handle_error at the top level. -/
theorem ws_C10_w :
    runCaseChain fsEmpty oracle0 ctx0 =
      some (handle_error (str "/x") (sq ++ str "/x" ++ sq ++ str " not found")) :=
  (ws_C10 (str "/x") (str "x")).2.2.2.2 fsEmpty oracle0 ctx0 CaseNoFile
    (sq ++ str "/x" ++ sq ++ str " not found") (by rfl) (by rfl)

end WS
